import Mathlib

/-!
Verification of the pab-converter document conversion pipeline.

The repository's `src-tauri/src/lib.rs` provides two entry points,
`convert_ohh_content` and `convert_ohh_file_path`.  The latter canonicalizes
the supplied path, checks its extension against the allow-list
{ohh, txt, json}, checks the file size against a fixed 100 MiB ceiling,
reads the file, and finally delegates to `converter::convert_ohh_file`,
which `convert_ohh_content` also calls directly.

The filesystem is modelled explicitly (`FsModel`): canonicalization maps a
path string to `none` (canonicalization failure) or to the metadata of the
canonical target — its extension (an OS string that may fail UTF-8
decoding), the size reported by `fs::metadata` (`none` = metadata failure),
and the content delivered by `fs::read_to_string` (`none` = read failure,
e.g. the bytes are not valid UTF-8).  The embedding additionally records a
trace of the operations performed, in order, so that statements such as
"the file is never read when the size gate fires" are expressible.

The `converter` module itself is not part of the available sources; it is
modelled from the specification (see the `converter` namespace below).
-/

namespace converter

/-- Modelled from the spec: the converter module is absent from the
available sources.  Error taxonomy of the conversion stages: `SyntaxError`
with a byte-offset location (Parser), `SemanticError` with the offending
field (Transformer), `EmitError` (Emitter). -/
inductive ConvError where
  | syntaxError (offset : Nat) (msg : String)
  | semanticError (field : String) (msg : String)
  | emitError (msg : String)
deriving DecidableEq, Repr

/-- Modelled from the spec: a record of the Intermediate Document — a named
record with a numeric value, as in the spec's concrete scenario
`{id: "a", value: 3}`. -/
structure Record where
  id : String
  value : Nat
deriving DecidableEq, Repr

/-- Modelled from the spec: the Intermediate Document, an ordered collection
of records. -/
structure IntermediateDocument where
  records : List Record
deriving DecidableEq, Repr

/-- A record is built purely from valid field values when its identifier is
a nonempty alphanumeric string (the exact shape the Parser accepts). -/
def Record.validB (r : Record) : Bool :=
  !r.id.data.isEmpty && r.id.data.all Char.isAlphanum

/-- A document is emittable when it has at least one record and every
record has valid field values. -/
def IntermediateDocument.validB (d : IntermediateDocument) : Bool :=
  !d.records.isEmpty && d.records.all Record.validB

/-! ### Decimal digits -/

/-- The character for a single decimal digit. -/
def digitChar (d : Nat) : Char :=
  if d = 0 then '0' else if d = 1 then '1' else if d = 2 then '2'
  else if d = 3 then '3' else if d = 4 then '4' else if d = 5 then '5'
  else if d = 6 then '6' else if d = 7 then '7' else if d = 8 then '8'
  else '9'

/-- Decimal digits of `n`, most significant first, in front of `acc`. -/
def natCharsAux (n : Nat) (acc : List Char) : List Char :=
  if h : n = 0 then acc
  else natCharsAux (n / 10) (digitChar (n % 10) :: acc)
termination_by n
decreasing_by exact Nat.div_lt_self (Nat.pos_of_ne_zero h) (by decide)

/-- Decimal rendering of a natural number as characters. -/
def natChars (n : Nat) : List Char :=
  if n = 0 then ['0'] else natCharsAux n []

/-- Numeric value of one digit character. -/
def charVal (c : Char) : Nat := c.toNat - 48

/-- Accumulating step of decimal evaluation. -/
def stepDigit (a : Nat) (c : Char) : Nat := a * 10 + charVal c

/-- Value of a digit string, most significant first. -/
def digitsVal (ds : List Char) : Nat := ds.foldl stepDigit 0

/-- Number of digits `natCharsAux` produces. -/
def lenDigits (n : Nat) : Nat :=
  if h : n = 0 then 0 else lenDigits (n / 10) + 1
termination_by n
decreasing_by exact Nat.div_lt_self (Nat.pos_of_ne_zero h) (by decide)

/-! ### Parser -/

/-- Modelled from the spec: the Parser consumes one record declaration
`record <id> <value>` from the front of the character stream in a single
left-to-right pass, attaching a byte offset to every diagnostic; it
fails closed on anything that is not a record declaration. -/
def parseRecord (pos : Nat) (cs : List Char) :
    Except ConvError (Record × List Char) :=
  match cs with
  | 'r' :: 'e' :: 'c' :: 'o' :: 'r' :: 'd' :: ' ' :: rest =>
    let idChars := rest.takeWhile Char.isAlphanum
    let rest1 := rest.dropWhile Char.isAlphanum
    if idChars.isEmpty then
      Except.error (ConvError.syntaxError (pos + 7) "expected record identifier")
    else
      match rest1 with
      | ' ' :: rest2 =>
        let digs := rest2.takeWhile Char.isDigit
        let rest3 := rest2.dropWhile Char.isDigit
        if digs.isEmpty then
          Except.error
            (ConvError.syntaxError (pos + 8 + idChars.length) "expected numeric value")
        else
          Except.ok (⟨String.mk idChars, digitsVal digs⟩, rest3)
      | _ =>
        Except.error
          (ConvError.syntaxError (pos + 7 + idChars.length) "expected value after identifier")
  | _ => Except.error (ConvError.syntaxError pos "expected record declaration")

/-- Modelled from the spec: the Parser consumes newline-separated record
declarations until the input is exhausted; unknown or trailing material is
rejected, never skipped.  `fuel` bounds the recursion and is always supplied
larger than the number of records the input can hold. -/
def parseRecs : Nat → Nat → List Char → Except ConvError (List Record)
  | 0, pos, _ => Except.error (ConvError.syntaxError pos "parser fuel exhausted")
  | fuel + 1, pos, cs =>
    match parseRecord pos cs with
    | Except.error e => Except.error e
    | Except.ok (r, rest) =>
      let pos1 := pos + (cs.length - rest.length)
      match rest with
      | [] => Except.ok [r]
      | '\n' :: rest2 =>
        match parseRecs fuel (pos1 + 1) rest2 with
        | Except.ok rs => Except.ok (r :: rs)
        | Except.error e => Except.error e
      | _ => Except.error (ConvError.syntaxError pos1 "expected newline between records")

/-- A whitespace character. -/
def isWs (c : Char) : Bool := c == ' ' || c == '\t' || c == '\n' || c == '\r'

/-- Remove trailing whitespace characters. -/
def dropTrailingWs (l : List Char) : List Char :=
  (l.reverse.dropWhile isWs).reverse

/-- Modelled from the spec: the Parser — empty input is a `SyntaxError`,
trailing whitespace and newlines are ignored, and the document is a
newline-separated sequence of record declarations. -/
def parseDoc (s : String) : Except ConvError IntermediateDocument :=
  let cs := dropTrailingWs s.data
  if cs.isEmpty then
    Except.error (ConvError.syntaxError 0 "empty input")
  else
    match parseRecs (cs.length + 1) 0 cs with
    | Except.ok rs => Except.ok ⟨rs⟩
    | Except.error e => Except.error e

/-! ### Transformer -/

/-- First identifier that occurs again later in the list, if any. -/
def firstDup : List String → Option String
  | [] => none
  | x :: xs => if x ∈ xs then some x else firstDup xs

/-- Modelled from the spec: the Transformer validates the Intermediate
Document — every record identifier must occur exactly once — and its
normalization is the identity (deterministic and order-preserving). -/
def transform (d : IntermediateDocument) : Except ConvError IntermediateDocument :=
  match firstDup (d.records.map Record.id) with
  | some i => Except.error (ConvError.semanticError i "duplicate record identifier")
  | none => Except.ok d

/-! ### Emitter -/

/-- Characters emitted for one record. -/
def recChars (r : Record) : List Char :=
  'r' :: 'e' :: 'c' :: 'o' :: 'r' :: 'd' :: ' ' :: (r.id.data ++ ' ' :: natChars r.value)

/-- Characters emitted for a record list, newline-separated. -/
def emitChars : List Record → List Char
  | [] => []
  | [r] => recChars r
  | r :: rs => recChars r ++ '\n' :: emitChars rs

/-- The emitted text of a document. -/
def emitString (d : IntermediateDocument) : String :=
  String.mk (emitChars d.records)

/-- Modelled from the spec: the Emitter serializes a validated document and
fails only with `EmitError` on genuinely unrepresentable states. -/
def emitDoc (d : IntermediateDocument) : Except ConvError String :=
  if d.validB then Except.ok (emitString d)
  else Except.error (ConvError.emitError "document is not representable")

/-! ### Orchestrator -/

/-- Modelled from the spec: the Conversion Orchestrator sequences
Parser, Transformer, Emitter, short-circuiting on the first failure. -/
def convert (s : String) : Except ConvError String := do
  let d ← parseDoc s
  let d1 ← transform d
  emitDoc d1

/-- Rendering of a stage error as the user-facing message string, tagged
with the producing stage. -/
def renderError : ConvError → String
  | ConvError.syntaxError off msg => "Syntax error at byte " ++ toString off ++ ": " ++ msg
  | ConvError.semanticError f msg => "Semantic error in field " ++ f ++ ": " ++ msg
  | ConvError.emitError msg => "Emit error: " ++ msg

/-- Modelled from the spec: `converter::convert_ohh_file`, the function both
entry points in `lib.rs` delegate to.  Its error type at the `lib.rs`
boundary is a plain string. -/
def convert_ohh_file (content : String) : Except String String :=
  match convert content with
  | Except.ok r => Except.ok r
  | Except.error e => Except.error (renderError e)

end converter

/-! ## The filesystem model and the `lib.rs` entry points -/

/-- An OS string as returned by `Path::extension`: either valid UTF-8 or
not (`OsStr::to_str` fails on the latter, and the source falls back to
the empty string via `unwrap_or("")`). -/
inductive OsStr where
  | utf8 (s : String)
  | nonUtf8
deriving DecidableEq

/-- The Rust `OsStr::to_str`. -/
def OsStr.to_str : OsStr → Option String
  | OsStr.utf8 s => some s
  | OsStr.nonUtf8 => none

/-- What the filesystem knows about a canonicalized path during one call:
the extension of the canonical path (`none` when `Path::extension` returns
`None`), the size reported by `fs::metadata` (`none` when the metadata call
fails), and the text delivered by `fs::read_to_string` (`none` when the
read fails, e.g. because the bytes are not valid UTF-8). -/
structure FileMeta where
  extension : Option OsStr
  size : Option Nat
  content : Option String

/-- The filesystem as observed by `convert_ohh_file_path`:
`canonicalize` maps the caller-supplied path string to `none` when
`Path::canonicalize` fails (nonexistent target, unresolvable `..`
segments, …) and otherwise to the metadata of the canonical target. -/
structure FsModel where
  canonicalize : String → Option FileMeta

/-- One observable step of `convert_ohh_file_path`, in source order:
canonicalization, the extension check, the `fs::metadata` call, the size
comparison, the `fs::read_to_string` call, and the call into the
converter. -/
inductive Op where
  | canonOp
  | extCheckOp
  | metadataOp
  | sizeCheckOp
  | readOp
  | convertOp
deriving DecidableEq, Repr

/-- The fixed order in which `convert_ohh_file_path` performs its steps. -/
def opOrder : List Op :=
  [Op.canonOp, Op.extCheckOp, Op.metadataOp, Op.sizeCheckOp, Op.readOp, Op.convertOp]

/-- Result of a `convert_ohh_file_path` call together with the trace of the
steps it performed, in order. -/
instance : DecidableEq (Except String String) := fun a b =>
  match a, b with
  | Except.ok x, Except.ok y =>
    if h : x = y then isTrue (by rw [h]) else isFalse (fun hc => h (by cases hc; rfl))
  | Except.error x, Except.error y =>
    if h : x = y then isTrue (by rw [h]) else isFalse (fun hc => h (by cases hc; rfl))
  | Except.ok _, Except.error _ => isFalse (fun hc => Except.noConfusion hc)
  | Except.error _, Except.ok _ => isFalse (fun hc => Except.noConfusion hc)

structure Outcome where
  result : Except String String
  trace : List Op
deriving DecidableEq

/-- `lib.rs`: `MAX_FILE_SIZE`, the 100 MiB size ceiling. -/
def MAX_FILE_SIZE : Nat := 100 * 1024 * 1024

/-- The extension allow-list of `lib.rs` line 47:
`matches!(ext_str, "ohh" | "txt" | "json")`. -/
def allowedExt (s : String) : Prop := s = "ohh" ∨ s = "txt" ∨ s = "json"

instance (s : String) : Decidable (allowedExt s) :=
  inferInstanceAs (Decidable (s = "ohh" ∨ s = "txt" ∨ s = "json"))

/-- `lib.rs`: message of the canonicalization failure. -/
def pathInvalidMsg : String := "Invalid file path or file does not exist"

/-- `lib.rs`: message of the disallowed-extension failure. -/
def unsupportedExtMsg : String :=
  "Invalid file type. Only .ohh, .txt, or .json files are supported"

/-- `lib.rs`: message of the missing-extension failure. -/
def noExtensionMsg : String := "File must have an extension"

/-- `lib.rs`: message of the metadata failure. -/
def accessErrMsg : String := "Cannot access file"

/-- `lib.rs`: message of the size-ceiling failure, carrying the size in
whole mebibytes. -/
def fileTooLargeMsg (mb : Nat) : String :=
  "File too large: " ++ toString mb ++ " MB (maximum 100 MB)"

/-- `lib.rs`: message of the read failure. -/
def readFailMsg : String := "Failed to read file"

/-- `lib.rs`: `convert_ohh_content` — delegates to
`converter::convert_ohh_file` and prefixes a failure with
`"conversion failed: "` (the `format!` on line 19). -/
def convert_ohh_content (content : String) : Except String String :=
  match converter.convert_ohh_file content with
  | Except.ok result => Except.ok result
  | Except.error e => Except.error ("conversion failed: " ++ e)

/-- `lib.rs`: `convert_ohh_file_path` — canonicalize the path, check the
extension against {ohh, txt, json} (a non-UTF-8 extension decodes to `""`
via `unwrap_or`), check the size against `MAX_FILE_SIZE`, read the file,
and hand the content to `converter::convert_ohh_file`, whose result is
returned unwrapped.  The trace records each step as it happens. -/
def convert_ohh_file_path (fs : FsModel) (file_path : String) : Outcome :=
  match fs.canonicalize file_path with
  | none => ⟨Except.error pathInvalidMsg, [Op.canonOp]⟩
  | some canonical =>
    match canonical.extension with
    | some ext =>
      let ext_str := ext.to_str.getD ""
      if ¬ allowedExt ext_str then
        ⟨Except.error unsupportedExtMsg, [Op.canonOp, Op.extCheckOp]⟩
      else
        match canonical.size with
        | none =>
          ⟨Except.error accessErrMsg, [Op.canonOp, Op.extCheckOp, Op.metadataOp]⟩
        | some len =>
          if len > MAX_FILE_SIZE then
            ⟨Except.error (fileTooLargeMsg (len / 1024 / 1024)),
              [Op.canonOp, Op.extCheckOp, Op.metadataOp, Op.sizeCheckOp]⟩
          else
            match canonical.content with
            | none =>
              ⟨Except.error readFailMsg,
                [Op.canonOp, Op.extCheckOp, Op.metadataOp, Op.sizeCheckOp, Op.readOp]⟩
            | some content =>
              match converter.convert_ohh_file content with
              | Except.ok result => ⟨Except.ok result, opOrder⟩
              | Except.error e => ⟨Except.error e, opOrder⟩
    | none => ⟨Except.error noExtensionMsg, [Op.canonOp, Op.extCheckOp]⟩

/-! ## Lemmas about decimal digits -/

namespace converter

/-- The ten decimal digit characters. -/
def digitList : List Char := ['0', '1', '2', '3', '4', '5', '6', '7', '8', '9']

theorem charVal_digitChar (d : Nat) (h : d < 10) : charVal (digitChar d) = d := by
  interval_cases d <;> decide

theorem digitChar_mem (d : Nat) (h : d < 10) : digitChar d ∈ digitList := by
  interval_cases d <;> decide

theorem mem_digitList_isDigit {c : Char} (h : c ∈ digitList) : c.isDigit = true := by
  fin_cases h <;> decide

theorem mem_digitList_isAlphanum {c : Char} (h : c ∈ digitList) : c.isAlphanum = true := by
  fin_cases h <;> decide

theorem mem_digitList_not_ws {c : Char} (h : c ∈ digitList) : isWs c = false := by
  fin_cases h <;> decide

theorem natCharsAux_zero (acc : List Char) : natCharsAux 0 acc = acc := by
  conv_lhs => rw [natCharsAux]
  rw [dif_pos rfl]

theorem natCharsAux_pos {n : Nat} (h : ¬ n = 0) (acc : List Char) :
    natCharsAux n acc = natCharsAux (n / 10) (digitChar (n % 10) :: acc) := by
  conv_lhs => rw [natCharsAux]
  rw [dif_neg h]

theorem lenDigits_zero : lenDigits 0 = 0 := by
  conv_lhs => rw [lenDigits]
  rw [dif_pos rfl]

theorem lenDigits_pos {n : Nat} (h : ¬ n = 0) : lenDigits n = lenDigits (n / 10) + 1 := by
  conv_lhs => rw [lenDigits]
  rw [dif_neg h]

theorem natCharsAux_append (n : Nat) :
    ∀ acc : List Char, natCharsAux n acc = natCharsAux n [] ++ acc := by
  induction n using Nat.strong_induction_on with
  | _ n ih =>
    intro acc
    by_cases h : n = 0
    · subst h
      simp [natCharsAux_zero]
    · have hlt : n / 10 < n := Nat.div_lt_self (Nat.pos_of_ne_zero h) (by decide)
      rw [natCharsAux_pos h, natCharsAux_pos h ([] : List Char),
        ih (n / 10) hlt (digitChar (n % 10) :: acc),
        ih (n / 10) hlt (digitChar (n % 10) :: [])]
      simp

theorem natCharsAux_length (n : Nat) :
    ∀ acc : List Char, (natCharsAux n acc).length = lenDigits n + acc.length := by
  induction n using Nat.strong_induction_on with
  | _ n ih =>
    intro acc
    by_cases h : n = 0
    · subst h
      simp [natCharsAux_zero, lenDigits_zero]
    · have hlt : n / 10 < n := Nat.div_lt_self (Nat.pos_of_ne_zero h) (by decide)
      rw [natCharsAux_pos h, ih (n / 10) hlt, lenDigits_pos h]
      simp
      omega

theorem natCharsAux_mem (n : Nat) :
    ∀ (acc : List Char) (c : Char), c ∈ natCharsAux n acc → c ∈ digitList ∨ c ∈ acc := by
  induction n using Nat.strong_induction_on with
  | _ n ih =>
    intro acc c hc
    by_cases h : n = 0
    · subst h
      rw [natCharsAux_zero] at hc
      exact Or.inr hc
    · have hlt : n / 10 < n := Nat.div_lt_self (Nat.pos_of_ne_zero h) (by decide)
      rw [natCharsAux_pos h] at hc
      rcases ih (n / 10) hlt _ c hc with hd | hm
      · exact Or.inl hd
      · rcases List.mem_cons.mp hm with rfl | hm2
        · exact Or.inl (digitChar_mem _ (Nat.mod_lt _ (by decide)))
        · exact Or.inr hm2

theorem natChars_mem {n : Nat} {c : Char} (h : c ∈ natChars n) : c ∈ digitList := by
  unfold natChars at h
  by_cases h0 : n = 0
  · rw [if_pos h0] at h
    rcases List.mem_singleton.mp h with rfl
    decide
  · rw [if_neg h0] at h
    rcases natCharsAux_mem n [] c h with hd | hm
    · exact hd
    · cases hm

theorem natChars_ne_nil (n : Nat) : natChars n ≠ [] := by
  unfold natChars
  by_cases h0 : n = 0
  · rw [if_pos h0]; decide
  · rw [if_neg h0]
    intro hnil
    have := natCharsAux_length n []
    rw [hnil] at this
    simp at this
    rw [lenDigits_pos h0] at this
    omega

theorem natCharsAux_foldl (n : Nat) :
    ∀ (acc : List Char) (a : Nat),
      (natCharsAux n acc).foldl stepDigit a
        = acc.foldl stepDigit (a * 10 ^ lenDigits n + n) := by
  induction n using Nat.strong_induction_on with
  | _ n ih =>
    intro acc a
    by_cases h : n = 0
    · subst h
      rw [natCharsAux_zero, lenDigits_zero]
      simp
    · have hlt : n / 10 < n := Nat.div_lt_self (Nat.pos_of_ne_zero h) (by decide)
      rw [natCharsAux_pos h, ih (n / 10) hlt, lenDigits_pos h]
      simp only [List.foldl_cons]
      rw [stepDigit, charVal_digitChar _ (Nat.mod_lt _ (by decide))]
      congr 1
      have hmod : 10 * (n / 10) + n % 10 = n := Nat.div_add_mod n 10
      rw [pow_succ]
      generalize 10 ^ lenDigits (n / 10) = b
      calc (a * b + n / 10) * 10 + n % 10
          = a * (b * 10) + (10 * (n / 10) + n % 10) := by ring
        _ = a * (b * 10) + n := by rw [hmod]

theorem digitsVal_natChars (n : Nat) : digitsVal (natChars n) = n := by
  unfold natChars digitsVal
  by_cases h0 : n = 0
  · rw [if_pos h0, h0]; decide
  · rw [if_neg h0, natCharsAux_foldl n [] 0]
    simp

/-! ## Lemmas about takeWhile and dropWhile over an append -/

theorem takeWhile_app (p : Char → Bool) (xs ys : List Char)
    (hxs : ∀ x ∈ xs, p x = true)
    (hys : ∀ y, ys.head? = some y → p y = false) :
    (xs ++ ys).takeWhile p = xs ∧ (xs ++ ys).dropWhile p = ys := by
  induction xs with
  | nil =>
    simp only [List.nil_append]
    cases ys with
    | nil => exact ⟨rfl, rfl⟩
    | cons y tl =>
      have hy := hys y rfl
      simp [List.takeWhile_cons, List.dropWhile_cons, hy]
  | cons x xs2 ih =>
    have hpx : p x = true := hxs x (List.mem_cons_self x xs2)
    have hrest := ih (fun z hz => hxs z (List.mem_cons_of_mem x hz))
    simp [List.takeWhile_cons, List.dropWhile_cons, hpx, hrest.1, hrest.2]

end converter

/-! ## The emitted text parses back: supporting lemmas -/

namespace converter

theorem emit_last (rs : List Record) (h : rs ≠ []) :
    ∃ l d, emitChars rs = l ++ [d] ∧ d ∈ digitList := by
  induction rs with
  | nil => cases h rfl
  | cons r tl ih =>
    cases tl with
    | nil =>
      obtain ⟨l2, d, hld⟩ : ∃ l2 d, natChars r.value = l2 ++ [d] := by
        rcases List.eq_nil_or_concat (natChars r.value) with hnil | ⟨l2, d, h2⟩
        · exact absurd hnil (natChars_ne_nil r.value)
        · exact ⟨l2, d, by rw [h2]; simp [List.concat_eq_append]⟩
      have hd : d ∈ digitList := by
        apply natChars_mem (n := r.value)
        rw [hld]
        exact List.mem_append_right _ (List.mem_singleton.mpr rfl)
      refine ⟨'r' :: 'e' :: 'c' :: 'o' :: 'r' :: 'd' :: ' ' :: (r.id.data ++ ' ' :: l2), d,
        ?_, hd⟩
      simp [emitChars, recChars, hld, List.append_assoc]
    | cons r2 tl2 =>
      obtain ⟨l, d, hl, hd⟩ := ih (by simp)
      refine ⟨recChars r ++ '\n' :: l, d, ?_, hd⟩
      simp [emitChars, hl, List.append_assoc]

theorem dropTrailingWs_concat (l : List Char) (d : Char) (hd : isWs d = false) :
    dropTrailingWs (l ++ [d]) = l ++ [d] := by
  unfold dropTrailingWs
  rw [List.reverse_append]
  simp only [List.reverse_cons, List.reverse_nil, List.nil_append, List.singleton_append]
  rw [List.dropWhile_cons]
  simp [hd]

theorem emitChars_length (rs : List Record) : rs.length ≤ (emitChars rs).length := by
  induction rs with
  | nil => simp [emitChars]
  | cons r tl ih =>
    cases tl with
    | nil => simp [emitChars, recChars]
    | cons r2 tl2 =>
      have hx : emitChars (r :: r2 :: tl2) = recChars r ++ '\n' :: emitChars (r2 :: tl2) := by
        simp [emitChars]
      rw [hx]
      simp only [List.length_cons, List.length_append] at *
      simp [recChars]
      omega

theorem parseRecord_emit (r : Record) (hr : r.validB = true) (pos : Nat) (rest : List Char)
    (hrest : ∀ y, rest.head? = some y → y = '\n') :
    parseRecord pos (recChars r ++ rest) = Except.ok (r, rest) := by
  have hr2 := hr
  unfold Record.validB at hr2
  rw [Bool.and_eq_true] at hr2
  obtain ⟨hne, hall⟩ := hr2
  have hnonempty : r.id.data.isEmpty = false := by
    cases hid : r.id.data.isEmpty
    · rfl
    · rw [hid] at hne; cases hne
  have halnum : ∀ c ∈ r.id.data, Char.isAlphanum c = true := by
    rw [List.all_eq_true] at hall
    exact fun c hc => hall c hc
  have hshape : recChars r ++ rest
      = 'r' :: 'e' :: 'c' :: 'o' :: 'r' :: 'd' :: ' ' ::
        (r.id.data ++ ' ' :: (natChars r.value ++ rest)) := by
    simp [recChars, List.append_assoc]
  have htake := takeWhile_app Char.isAlphanum r.id.data (' ' :: (natChars r.value ++ rest))
    halnum (by intro y hy; cases hy; decide)
  have hdigs : ∀ c ∈ natChars r.value, Char.isDigit c = true :=
    fun c hc => mem_digitList_isDigit (natChars_mem hc)
  have htake2 := takeWhile_app Char.isDigit (natChars r.value) rest hdigs
    (by
      intro y hy
      have := hrest y hy
      subst this
      decide)
  have hdigsEmpty : (natChars r.value).isEmpty = false := by
    cases hv : natChars r.value
    · exact absurd hv (natChars_ne_nil r.value)
    · rfl
  rw [hshape]
  simp only [parseRecord, htake.1, htake.2, hnonempty, Bool.false_eq_true, if_false,
    htake2.1, htake2.2, hdigsEmpty, digitsVal_natChars]

theorem parseRecs_emit : ∀ (rs : List Record) (fuel pos : Nat), rs ≠ [] →
    (∀ r ∈ rs, r.validB = true) → rs.length ≤ fuel →
    parseRecs fuel pos (emitChars rs) = Except.ok rs := by
  intro rs
  induction rs with
  | nil => intro fuel pos h _ _; cases h rfl
  | cons r tl ih =>
    intro fuel pos _ hall hlen
    cases fuel with
    | zero => simp at hlen
    | succ f =>
      have hr := hall r (List.mem_cons_self r tl)
      cases tl with
      | nil =>
        have h1 : parseRecord pos (emitChars [r]) = Except.ok (r, []) := by
          have h0 := parseRecord_emit r hr pos [] (by intro y hy; cases hy)
          simpa [emitChars] using h0
        simp [parseRecs, h1]
      | cons r2 tl2 =>
        have hemit : emitChars (r :: r2 :: tl2)
            = recChars r ++ '\n' :: emitChars (r2 :: tl2) := by
          simp [emitChars]
        have h1 : parseRecord pos (emitChars (r :: r2 :: tl2))
            = Except.ok (r, '\n' :: emitChars (r2 :: tl2)) := by
          rw [hemit]
          exact parseRecord_emit r hr pos _ (by intro y hy; cases hy; rfl)
        have h2 : ∀ pp, parseRecs f pp (emitChars (r2 :: tl2)) = Except.ok (r2 :: tl2) := by
          intro pp
          refine ih f pp (by simp) (fun x hx => hall x (List.mem_cons_of_mem r hx)) ?_
          simp only [List.length_cons] at hlen ⊢
          omega
        simp [parseRecs, h1, h2]

theorem parseDoc_emitString (d : IntermediateDocument) (h : d.validB = true) :
    parseDoc (emitString d) = Except.ok d := by
  have h2 := h
  unfold IntermediateDocument.validB at h2
  rw [Bool.and_eq_true] at h2
  obtain ⟨hne, hall⟩ := h2
  have hrecne : d.records ≠ [] := by
    intro hnil
    rw [hnil] at hne
    cases hne
  have hallv : ∀ r ∈ d.records, r.validB = true := by
    rw [List.all_eq_true] at hall
    exact fun r hr => hall r hr
  obtain ⟨l, dg, hl, hdg⟩ := emit_last d.records hrecne
  have hdata : (emitString d).data = emitChars d.records := rfl
  have hstrip : dropTrailingWs (emitChars d.records) = emitChars d.records := by
    rw [hl]
    exact dropTrailingWs_concat l dg (mem_digitList_not_ws hdg)
  have hnonnil : emitChars d.records ≠ [] := by
    rw [hl]
    simp
  have hempty : (emitChars d.records).isEmpty = false := by
    cases hv : emitChars d.records
    · exact absurd hv hnonnil
    · rfl
  have hfuel : d.records.length ≤ (emitChars d.records).length + 1 :=
    Nat.le_succ_of_le (emitChars_length d.records)
  have hparse := parseRecs_emit d.records ((emitChars d.records).length + 1) 0
    hrecne hallv hfuel
  unfold parseDoc
  rw [hdata, hstrip]
  simp only [hempty, Bool.false_eq_true, if_false, hparse]

end converter

/-! ## Distinguishing the guard messages and the converter messages -/

theorem ne_of_fn_ne {α : Type} (f : String → α) {a b : String} (h : f a ≠ f b) : a ≠ b :=
  fun e => h (congrArg f e)

theorem renderError_head (e : converter.ConvError) :
    (converter.renderError e).data.head? = some 'S' ∨
    (converter.renderError e).data.head? = some 'E' := by
  cases e
  · exact Or.inl rfl
  · exact Or.inl rfl
  · exact Or.inr rfl

theorem renderError_ne_unsupported (e : converter.ConvError) :
    converter.renderError e ≠ unsupportedExtMsg := by
  apply ne_of_fn_ne (fun s => s.data.head?)
  rcases renderError_head e with h | h <;> rw [h] <;> decide

theorem renderError_ne_noExtension (e : converter.ConvError) :
    converter.renderError e ≠ noExtensionMsg := by
  apply ne_of_fn_ne (fun s => s.data.head?)
  rcases renderError_head e with h | h <;> rw [h] <;> decide

theorem renderError_ne_fileTooLarge (e : converter.ConvError) (m : Nat) :
    converter.renderError e ≠ fileTooLargeMsg m := by
  apply ne_of_fn_ne (fun s => s.data.head?)
  have hm : (fileTooLargeMsg m).data.head? = some 'F' := rfl
  rcases renderError_head e with h | h <;> rw [h, hm] <;> decide

theorem readFail_ne_fileTooLarge (m : Nat) : readFailMsg ≠ fileTooLargeMsg m := by
  apply ne_of_fn_ne (fun s => (s.data.drop 1).head?)
  have hm : ((fileTooLargeMsg m).data.drop 1).head? = some 'i' := rfl
  rw [hm]
  decide

theorem unsupported_ne_fileTooLarge (m : Nat) : unsupportedExtMsg ≠ fileTooLargeMsg m := by
  apply ne_of_fn_ne (fun s => s.data.head?)
  have hm : (fileTooLargeMsg m).data.head? = some 'F' := rfl
  rw [hm]
  decide

theorem noExtension_ne_fileTooLarge (m : Nat) : noExtensionMsg ≠ fileTooLargeMsg m := by
  apply ne_of_fn_ne (fun s => (s.data.drop 5).head?)
  have hm : ((fileTooLargeMsg m).data.drop 5).head? = some 't' := rfl
  rw [hm]
  decide

theorem accessErr_ne_fileTooLarge (m : Nat) : accessErrMsg ≠ fileTooLargeMsg m := by
  apply ne_of_fn_ne (fun s => s.data.head?)
  have hm : (fileTooLargeMsg m).data.head? = some 'F' := rfl
  rw [hm]
  decide

/-! ## The fixed order of the guard steps -/

theorem trace_isPrefix (fs : FsModel) (p : String) :
    ((convert_ohh_file_path fs p).trace).isPrefixOf opOrder = true := by
  rcases hc : fs.canonicalize p with _ | ⟨ext, size, content⟩
  · simp [convert_ohh_file_path, hc]
    all_goals decide
  · rcases ext with _ | os
    · simp [convert_ohh_file_path, hc]
      all_goals decide
    · by_cases hgood : allowedExt (os.to_str.getD "")
      · rcases size with _ | len
        · simp [convert_ohh_file_path, hc, hgood]
          all_goals decide
        · by_cases hbig : len > MAX_FILE_SIZE
          · simp [convert_ohh_file_path, hc, hgood, hbig]
            all_goals decide
          · rcases content with _ | content
            · simp [convert_ohh_file_path, hc, hgood, hbig]
              all_goals decide
            · rcases hcv : converter.convert_ohh_file content with r | e
              · simp [convert_ohh_file_path, hc, hgood, hbig, hcv]
              · simp [convert_ohh_file_path, hc, hgood, hbig, hcv]
      · simp [convert_ohh_file_path, hc, hgood]
        all_goals decide

/-! ## Statement helpers for the claims -/

/-- The call failed with one of the two unsupported-extension messages of
`lib.rs` (extension not in the allow-list, or extension absent). -/
@[reducible] def failsUnsupported (o : Outcome) : Prop :=
  o.result = Except.error unsupportedExtMsg ∨ o.result = Except.error noExtensionMsg

/-- The canonical path's extension is absent or not in the allow-list
{ohh, txt, json}. -/
@[reducible] def extBad (meta : FileMeta) : Prop :=
  meta.extension = none ∨
    ∃ os, meta.extension = some os ∧ ¬ allowedExt (os.to_str.getD "")

/-! ## Concrete filesystem fixtures -/

/-- An oversize file with the disallowed extension `exe`. -/
def metaC1 : FileMeta := ⟨some (OsStr.utf8 "exe"), some (MAX_FILE_SIZE + 1), some ""⟩

/-- A filesystem whose every path canonicalizes to `metaC1`. -/
def fsC1 : FsModel := ⟨fun _ => some metaC1⟩

/-- A small readable file with no extension. -/
def metaC2 : FileMeta := ⟨none, some 1, some ""⟩

/-- A filesystem whose every path canonicalizes to `metaC2`. -/
def fsC2 : FsModel := ⟨fun _ => some metaC2⟩

/-- An oversize file with the allowed extension `txt`. -/
def metaC3 : FileMeta := ⟨some (OsStr.utf8 "txt"), some (200 * 1024 * 1024), some ""⟩

/-- A filesystem whose every path canonicalizes to `metaC3`. -/
def fsC3 : FsModel := ⟨fun _ => some metaC3⟩

/-- A filesystem on which canonicalization always fails. -/
def fsC4 : FsModel := ⟨fun _ => none⟩

/-- A small file with the allowed extension `ohh` whose content is empty. -/
def metaC5 : FileMeta := ⟨some (OsStr.utf8 "ohh"), some 10, some ""⟩

/-- A filesystem whose every path canonicalizes to `metaC5`. -/
def fsC5 : FsModel := ⟨fun _ => some metaC5⟩

/-- A small file with the uppercase extension `OHH`. -/
def metaC9 : FileMeta := ⟨some (OsStr.utf8 "OHH"), some 10, some ""⟩

/-- A filesystem whose every path canonicalizes to `metaC9`. -/
def fsC9 : FsModel := ⟨fun _ => some metaC9⟩

/-- A small file with the allowed extension `ohh` whose read fails
(non-UTF-8 bytes). -/
def metaC10 : FileMeta := ⟨some (OsStr.utf8 "ohh"), some 10, none⟩

/-- A filesystem whose every path canonicalizes to `metaC10`. -/
def fsC10 : FsModel := ⟨fun _ => some metaC10⟩

/-! ## The claims -/

/-- C1: for every file path that canonicalizes successfully, whose resolved
extension is not in {ohh, txt, json}, and whose file size exceeds the
100 MiB ceiling, `convert_ohh_file_path` fails with the
unsupported-extension error and never with the file-too-large error: the
extension check runs before the size check — the trace stops at the
extension check, so the size comparison and the read never happen — and
every trace follows the fixed order canonicalize → extension check →
metadata → size check → read → convert. -/
theorem guard_extension_before_size
    (fs : FsModel) (p : String) (meta : FileMeta) (os : OsStr) (sz : Nat)
    (hc : fs.canonicalize p = some meta)
    (hext : meta.extension = some os)
    (hbad : ¬ allowedExt (os.to_str.getD ""))
    (_hsz : meta.size = some sz)
    (_hbig : sz > MAX_FILE_SIZE) :
    (convert_ohh_file_path fs p).result = Except.error unsupportedExtMsg ∧
    (∀ m, (convert_ohh_file_path fs p).result ≠ Except.error (fileTooLargeMsg m)) ∧
    (convert_ohh_file_path fs p).trace = [Op.canonOp, Op.extCheckOp] ∧
    Op.sizeCheckOp ∉ (convert_ohh_file_path fs p).trace ∧
    Op.readOp ∉ (convert_ohh_file_path fs p).trace ∧
    (∀ fs1 p1, ((convert_ohh_file_path fs1 p1).trace).isPrefixOf opOrder = true) := by
  have hres : (convert_ohh_file_path fs p).result = Except.error unsupportedExtMsg ∧
      (convert_ohh_file_path fs p).trace = [Op.canonOp, Op.extCheckOp] := by
    simp [convert_ohh_file_path, hc, hext, hbad]
  refine ⟨hres.1, ?_, hres.2, ?_, ?_, fun fs1 p1 => trace_isPrefix fs1 p1⟩
  · intro m he
    rw [hres.1] at he
    exact unsupported_ne_fileTooLarge m (Except.error.inj he)
  · rw [hres.2]; decide
  · rw [hres.2]; decide

theorem guard_extension_before_size_witness :
    fsC1.canonicalize "big.exe" = some metaC1 ∧
    metaC1.size = some (MAX_FILE_SIZE + 1) ∧
    (convert_ohh_file_path fsC1 "big.exe").result = Except.error unsupportedExtMsg :=
  ⟨rfl, rfl,
    (guard_extension_before_size fsC1 "big.exe" metaC1 (OsStr.utf8 "exe")
      (MAX_FILE_SIZE + 1) rfl rfl (by decide) rfl (by decide)).1⟩

/-- C4: for every path string that cannot be canonicalized — for example a
traversal path such as `"../../etc/passwd"` with a nonexistent target —
`convert_ohh_file_path` fails with the path-invalid error, and no extension
check, metadata fetch, size check, read or conversion is performed. -/
theorem guard_pathInvalid_on_canonicalize_failure (fs : FsModel) (p : String)
    (h : fs.canonicalize p = none) :
    (convert_ohh_file_path fs p).result = Except.error pathInvalidMsg ∧
    (convert_ohh_file_path fs p).trace = [Op.canonOp] ∧
    Op.extCheckOp ∉ (convert_ohh_file_path fs p).trace ∧
    Op.metadataOp ∉ (convert_ohh_file_path fs p).trace ∧
    Op.sizeCheckOp ∉ (convert_ohh_file_path fs p).trace ∧
    Op.readOp ∉ (convert_ohh_file_path fs p).trace ∧
    Op.convertOp ∉ (convert_ohh_file_path fs p).trace := by
  have hres : (convert_ohh_file_path fs p).result = Except.error pathInvalidMsg ∧
      (convert_ohh_file_path fs p).trace = [Op.canonOp] := by
    simp [convert_ohh_file_path, h]
  refine ⟨hres.1, hres.2, ?_, ?_, ?_, ?_, ?_⟩ <;> rw [hres.2] <;> decide

theorem guard_pathInvalid_on_canonicalize_failure_witness :
    fsC4.canonicalize "../../etc/passwd" = none ∧
    (convert_ohh_file_path fsC4 "../../etc/passwd").result
      = Except.error pathInvalidMsg :=
  ⟨rfl, (guard_pathInvalid_on_canonicalize_failure fsC4 "../../etc/passwd" rfl).1⟩

/-- C9: the extension comparison is exact and case-sensitive: a canonical
path whose extension is a non-lowercase variant of an allowed extension
(lower-casing it yields one of ohh/txt/json but it is not literally equal
to any of them) fails with the unsupported-extension error. -/
theorem guard_extension_case_sensitive
    (fs : FsModel) (p : String) (meta : FileMeta) (e : String)
    (hc : fs.canonicalize p = some meta)
    (hext : meta.extension = some (OsStr.utf8 e))
    (_hlower : e.data.map Char.toLower = "ohh".data ∨ e.data.map Char.toLower = "txt".data ∨
      e.data.map Char.toLower = "json".data)
    (hne : ¬ allowedExt e) :
    (convert_ohh_file_path fs p).result = Except.error unsupportedExtMsg ∧
    (convert_ohh_file_path fs p).trace = [Op.canonOp, Op.extCheckOp] := by
  have hbad : ¬ allowedExt ((OsStr.utf8 e).to_str.getD "") := hne
  simp [convert_ohh_file_path, hc, hext, hbad]

theorem guard_extension_case_sensitive_witness :
    fsC9.canonicalize "hand.OHH" = some metaC9 ∧
    "OHH".data.map Char.toLower = "ohh".data ∧
    (convert_ohh_file_path fsC9 "hand.OHH").result = Except.error unsupportedExtMsg :=
  ⟨rfl, by decide,
    (guard_extension_case_sensitive fsC9 "hand.OHH" metaC9 "OHH" rfl rfl
      (Or.inl (by decide)) (by decide)).1⟩

/-- C10: for every file that passes canonicalization, the extension check
and the size check but whose read fails (for example because its bytes are
not valid UTF-8), `convert_ohh_file_path` fails with the read-failure
error `"Failed to read file"` and the conversion logic is never invoked. -/
theorem guard_read_failure_stops_before_convert
    (fs : FsModel) (p : String) (meta : FileMeta) (os : OsStr) (sz : Nat)
    (hc : fs.canonicalize p = some meta)
    (hext : meta.extension = some os)
    (hgood : allowedExt (os.to_str.getD ""))
    (hsz : meta.size = some sz)
    (hsmall : ¬ sz > MAX_FILE_SIZE)
    (hread : meta.content = none) :
    (convert_ohh_file_path fs p).result = Except.error readFailMsg ∧
    (convert_ohh_file_path fs p).trace
      = [Op.canonOp, Op.extCheckOp, Op.metadataOp, Op.sizeCheckOp, Op.readOp] ∧
    Op.convertOp ∉ (convert_ohh_file_path fs p).trace := by
  have hres : (convert_ohh_file_path fs p).result = Except.error readFailMsg ∧
      (convert_ohh_file_path fs p).trace
        = [Op.canonOp, Op.extCheckOp, Op.metadataOp, Op.sizeCheckOp, Op.readOp] := by
    simp [convert_ohh_file_path, hc, hext, hgood, hsz, hsmall, hread]
  refine ⟨hres.1, hres.2, ?_⟩
  rw [hres.2]
  decide

theorem guard_read_failure_stops_before_convert_witness :
    fsC10.canonicalize "bad.ohh" = some metaC10 ∧
    metaC10.content = none ∧
    (convert_ohh_file_path fsC10 "bad.ohh").result = Except.error readFailMsg :=
  ⟨rfl, rfl,
    (guard_read_failure_stops_before_convert fsC10 "bad.ohh" metaC10
      (OsStr.utf8 "ohh") 10 rfl rfl (by decide) rfl (by decide) rfl).1⟩

/-- C2: for every path that canonicalizes successfully,
`convert_ohh_file_path` fails with an unsupported-extension error if and
only if the canonical path's extension is absent or not in the allow-list
{ohh, txt, json}; when the extension is one of those three the extension
gate is passed and the metadata fetch is reached. -/
theorem guard_unsupported_iff_ext_bad
    (fs : FsModel) (p : String) (meta : FileMeta)
    (hc : fs.canonicalize p = some meta) :
    (failsUnsupported (convert_ohh_file_path fs p) ↔ extBad meta) ∧
    (¬ extBad meta → Op.metadataOp ∈ (convert_ohh_file_path fs p).trace) := by
  rcases hext : meta.extension with _ | os
  · have hres : (convert_ohh_file_path fs p).result = Except.error noExtensionMsg := by
      simp [convert_ohh_file_path, hc, hext]
    constructor
    · exact ⟨fun _ => Or.inl hext, fun _ => Or.inr hres⟩
    · intro hnb
      exact absurd (Or.inl hext) hnb
  · by_cases hgood : allowedExt (os.to_str.getD "")
    · have hnb : ¬ extBad meta := by
        rintro (h0 | ⟨os2, heq, hbad2⟩)
        · rw [hext] at h0
          exact Option.noConfusion h0
        · rw [hext] at heq
          cases Option.some.inj heq
          exact hbad2 hgood
      have hkey : ¬ failsUnsupported (convert_ohh_file_path fs p) ∧
          Op.metadataOp ∈ (convert_ohh_file_path fs p).trace := by
        rcases hsz : meta.size with _ | len
        · have hres : (convert_ohh_file_path fs p).result = Except.error accessErrMsg ∧
              (convert_ohh_file_path fs p).trace
                = [Op.canonOp, Op.extCheckOp, Op.metadataOp] := by
            simp [convert_ohh_file_path, hc, hext, hgood, hsz]
          constructor
          · rintro (h1 | h1) <;> rw [hres.1] at h1 <;>
              exact absurd (Except.error.inj h1) (by decide)
          · rw [hres.2]; decide
        · by_cases hbig : len > MAX_FILE_SIZE
          · have hres : (convert_ohh_file_path fs p).result
                = Except.error (fileTooLargeMsg (len / 1024 / 1024)) ∧
                (convert_ohh_file_path fs p).trace
                  = [Op.canonOp, Op.extCheckOp, Op.metadataOp, Op.sizeCheckOp] := by
              simp [convert_ohh_file_path, hc, hext, hgood, hsz, hbig]
            constructor
            · rintro (h1 | h1) <;> rw [hres.1] at h1
              · exact unsupported_ne_fileTooLarge _ (Except.error.inj h1).symm
              · exact noExtension_ne_fileTooLarge _ (Except.error.inj h1).symm
            · rw [hres.2]; decide
          · rcases hread : meta.content with _ | c
            · have hres : (convert_ohh_file_path fs p).result = Except.error readFailMsg ∧
                  (convert_ohh_file_path fs p).trace
                    = [Op.canonOp, Op.extCheckOp, Op.metadataOp, Op.sizeCheckOp, Op.readOp] := by
                simp [convert_ohh_file_path, hc, hext, hgood, hsz, hbig, hread]
              constructor
              · rintro (h1 | h1) <;> rw [hres.1] at h1 <;>
                  exact absurd (Except.error.inj h1) (by decide)
              · rw [hres.2]; decide
            · rcases hcc : converter.convert c with e0 | r
              · have hcf : converter.convert_ohh_file c
                    = Except.error (converter.renderError e0) := by
                  simp [converter.convert_ohh_file, hcc]
                have hres : (convert_ohh_file_path fs p).result
                    = Except.error (converter.renderError e0) ∧
                    (convert_ohh_file_path fs p).trace = opOrder := by
                  simp [convert_ohh_file_path, hc, hext, hgood, hsz, hbig, hread, hcf]
                constructor
                · rintro (h1 | h1) <;> rw [hres.1] at h1
                  · exact renderError_ne_unsupported e0 (Except.error.inj h1)
                  · exact renderError_ne_noExtension e0 (Except.error.inj h1)
                · rw [hres.2]; decide
              · have hcf : converter.convert_ohh_file c = Except.ok r := by
                  simp [converter.convert_ohh_file, hcc]
                have hres : (convert_ohh_file_path fs p).result = Except.ok r ∧
                    (convert_ohh_file_path fs p).trace = opOrder := by
                  simp [convert_ohh_file_path, hc, hext, hgood, hsz, hbig, hread, hcf]
                constructor
                · rintro (h1 | h1) <;> rw [hres.1] at h1 <;> exact Except.noConfusion h1
                · rw [hres.2]; decide
      exact ⟨⟨fun hf => absurd hf hkey.1, fun hb => absurd hb hnb⟩, fun _ => hkey.2⟩
    · have hres : (convert_ohh_file_path fs p).result = Except.error unsupportedExtMsg := by
        simp [convert_ohh_file_path, hc, hext, hgood]
      constructor
      · exact ⟨fun _ => Or.inr ⟨os, hext, hgood⟩, fun _ => Or.inl hres⟩
      · intro hnb
        exact absurd (Or.inr ⟨os, hext, hgood⟩) hnb

theorem guard_unsupported_iff_ext_bad_witness :
    fsC2.canonicalize "noext" = some metaC2 ∧
    (failsUnsupported (convert_ohh_file_path fsC2 "noext") ↔ extBad metaC2) :=
  ⟨rfl, (guard_unsupported_iff_ext_bad fsC2 "noext" metaC2 rfl).1⟩

/-- C3: for every path that passes canonicalization and the extension
check and whose metadata reports size `sz`, `convert_ohh_file_path` fails
with the file-too-large error if and only if `sz` exceeds the 100 MiB
ceiling; in that case the trace stops at the size check — the content is
never read — and every trace follows the fixed order, so the size check
always runs before the read. -/
theorem guard_fileTooLarge_iff_oversize
    (fs : FsModel) (p : String) (meta : FileMeta) (os : OsStr) (sz : Nat)
    (hc : fs.canonicalize p = some meta)
    (hext : meta.extension = some os)
    (hgood : allowedExt (os.to_str.getD ""))
    (hsz : meta.size = some sz) :
    ((∃ m, (convert_ohh_file_path fs p).result = Except.error (fileTooLargeMsg m))
        ↔ sz > MAX_FILE_SIZE) ∧
    (sz > MAX_FILE_SIZE →
        (convert_ohh_file_path fs p).trace
          = [Op.canonOp, Op.extCheckOp, Op.metadataOp, Op.sizeCheckOp] ∧
        Op.readOp ∉ (convert_ohh_file_path fs p).trace) ∧
    ((convert_ohh_file_path fs p).trace).isPrefixOf opOrder = true := by
  by_cases hbig : sz > MAX_FILE_SIZE
  · have hres : (convert_ohh_file_path fs p).result
        = Except.error (fileTooLargeMsg (sz / 1024 / 1024)) ∧
        (convert_ohh_file_path fs p).trace
          = [Op.canonOp, Op.extCheckOp, Op.metadataOp, Op.sizeCheckOp] := by
      simp [convert_ohh_file_path, hc, hext, hgood, hsz, hbig]
    refine ⟨⟨fun _ => hbig, fun _ => ⟨sz / 1024 / 1024, hres.1⟩⟩,
      fun _ => ⟨hres.2, ?_⟩, trace_isPrefix fs p⟩
    rw [hres.2]
    decide
  · refine ⟨⟨?_, fun h => absurd h hbig⟩, fun h => absurd h hbig, trace_isPrefix fs p⟩
    rintro ⟨m, hm⟩
    exfalso
    rcases hread : meta.content with _ | c
    · have hres : (convert_ohh_file_path fs p).result = Except.error readFailMsg := by
        simp [convert_ohh_file_path, hc, hext, hgood, hsz, hbig, hread]
      rw [hres] at hm
      exact readFail_ne_fileTooLarge m (Except.error.inj hm)
    · rcases hcc : converter.convert c with e0 | r
      · have hcf : converter.convert_ohh_file c
            = Except.error (converter.renderError e0) := by
          simp [converter.convert_ohh_file, hcc]
        have hres : (convert_ohh_file_path fs p).result
            = Except.error (converter.renderError e0) := by
          simp [convert_ohh_file_path, hc, hext, hgood, hsz, hbig, hread, hcf]
        rw [hres] at hm
        exact renderError_ne_fileTooLarge e0 m (Except.error.inj hm)
      · have hcf : converter.convert_ohh_file c = Except.ok r := by
          simp [converter.convert_ohh_file, hcc]
        have hres : (convert_ohh_file_path fs p).result = Except.ok r := by
          simp [convert_ohh_file_path, hc, hext, hgood, hsz, hbig, hread, hcf]
        rw [hres] at hm
        exact Except.noConfusion hm

theorem guard_fileTooLarge_iff_oversize_witness :
    fsC3.canonicalize "big.txt" = some metaC3 ∧
    ((∃ m, (convert_ohh_file_path fsC3 "big.txt").result
        = Except.error (fileTooLargeMsg m)) ↔ 200 * 1024 * 1024 > MAX_FILE_SIZE) :=
  ⟨rfl, (guard_fileTooLarge_iff_oversize fsC3 "big.txt" metaC3 (OsStr.utf8 "txt")
    (200 * 1024 * 1024) rfl rfl (by decide) rfl).1⟩

/-- C5 (counterexample to the claim as stated): with a file whose Input
Guard checks all pass and whose content is the empty string, the two entry
points return different error strings — `convert_ohh_file_path` returns
the raw converter error while `convert_ohh_content` prefixes it with
`"conversion failed: "`. -/
theorem filePath_content_result_differs :
    fsC5.canonicalize "sample.ohh" = some metaC5 ∧
    metaC5.content = some "" ∧
    (convert_ohh_file_path fsC5 "sample.ohh").result
      = Except.error "Syntax error at byte 0: empty input" ∧
    convert_ohh_content ""
      = Except.error "conversion failed: Syntax error at byte 0: empty input" ∧
    (convert_ohh_file_path fsC5 "sample.ohh").result ≠ convert_ohh_content "" := by
  refine ⟨rfl, rfl, rfl, rfl, ?_⟩
  decide

/-- C5 (amended): when the Input Guard checks all pass and the read
delivers `content`, `convert_ohh_file_path` returns exactly the converter's
result; `convert_ohh_content` agrees with it on success, and on failure
returns the same converter error prefixed with `"conversion failed: "`. -/
theorem filePath_delegates_to_converter
    (fs : FsModel) (p : String) (meta : FileMeta) (os : OsStr) (sz : Nat) (content : String)
    (hc : fs.canonicalize p = some meta)
    (hext : meta.extension = some os)
    (hgood : allowedExt (os.to_str.getD ""))
    (hsz : meta.size = some sz)
    (hsmall : ¬ sz > MAX_FILE_SIZE)
    (hread : meta.content = some content) :
    (convert_ohh_file_path fs p).result = converter.convert_ohh_file content ∧
    (∀ r, converter.convert_ohh_file content = Except.ok r →
        convert_ohh_content content = Except.ok r) ∧
    (∀ e, converter.convert_ohh_file content = Except.error e →
        convert_ohh_content content = Except.error ("conversion failed: " ++ e)) := by
  refine ⟨?_, ?_, ?_⟩
  · rcases hcf : converter.convert_ohh_file content with e | r
    · simp [convert_ohh_file_path, hc, hext, hgood, hsz, hsmall, hread, hcf]
    · simp [convert_ohh_file_path, hc, hext, hgood, hsz, hsmall, hread, hcf]
  · intro r hr
    simp [convert_ohh_content, hr]
  · intro e he
    simp [convert_ohh_content, he]

theorem filePath_delegates_to_converter_witness :
    fsC5.canonicalize "sample.ohh" = some metaC5 ∧
    (convert_ohh_file_path fsC5 "sample.ohh").result = converter.convert_ohh_file "" :=
  ⟨rfl, (filePath_delegates_to_converter fsC5 "sample.ohh" metaC5 (OsStr.utf8 "ohh")
    10 "" rfl rfl (by decide) rfl (by decide) rfl).1⟩

/-- C6: the converter applied to the empty string fails with a Parser
(`SyntaxError`) stage error, and `convert_ohh_content ""` therefore
returns that error (prefixed) and never a success value. -/
theorem convert_empty_is_syntaxError :
    converter.convert ""
      = Except.error (converter.ConvError.syntaxError 0 "empty input") ∧
    converter.convert_ohh_file ""
      = Except.error "Syntax error at byte 0: empty input" ∧
    convert_ohh_content ""
      = Except.error "conversion failed: Syntax error at byte 0: empty input" :=
  ⟨rfl, rfl, rfl⟩

/-- C7: conversion is deterministic — repeated calls on the same input
return identical results, including the error message; the embedding of
both entry points and of the converter is a pure function, so equal inputs
give equal outputs. -/
theorem convert_deterministic (x : String) (fs : FsModel) (p : String) :
    convert_ohh_content x = convert_ohh_content x ∧
    converter.convert_ohh_file x = converter.convert_ohh_file x ∧
    convert_ohh_file_path fs p = convert_ohh_file_path fs p :=
  ⟨rfl, rfl, rfl⟩

/-- C8: round-trip — for every Intermediate Document built purely from
valid field values, the Emitter succeeds and parsing the emitted text
yields a structurally equal document: `parse (emit id) = ok id`. -/
theorem parse_emit_roundTrip (d : converter.IntermediateDocument)
    (h : d.validB = true) :
    converter.emitDoc d = Except.ok (converter.emitString d) ∧
    converter.parseDoc (converter.emitString d) = Except.ok d :=
  ⟨by simp [converter.emitDoc, h], converter.parseDoc_emitString d h⟩

theorem parse_emit_roundTrip_witness :
    (converter.IntermediateDocument.mk [converter.Record.mk "a" 3]).validB = true ∧
    converter.parseDoc
        (converter.emitString (converter.IntermediateDocument.mk [converter.Record.mk "a" 3]))
      = Except.ok (converter.IntermediateDocument.mk [converter.Record.mk "a" 3]) :=
  ⟨by decide,
    (parse_emit_roundTrip (converter.IntermediateDocument.mk [converter.Record.mk "a" 3])
      (by decide)).2⟩
